import Mathlib

/-!
# Migrator: lock coordination and ordered, ledger-guarded application

A shallow embedding of `migrator.go`.  The database behind `*sql.DB`, the
file system and the clock are external to the package; they are modelled by

* `DB`   : the part of the database the package reads and writes (the row
           `id = 1` of `migrations_lock`, the `version` column of
           `migrations`) together with a ghost trace of the scripts handed
           to `db.Exec`;
* `Env`  : everything the outside world decides during one call: the
           result of `os.ReadDir` and `os.ReadFile`, the outcome of each
           script, the two readings of `time.Now()`, and transport
           failures injected at each database operation.

Modelling assumptions (none of them is visible in the Go source):

* a Go `string` is a sequence of bytes, `List Nat`;
* the column `locked` of an existing lock row holds `TRUE` or `FALSE`;
* a migration script has no effect on the two bookkeeping tables;
* `version = ?` and the unique key compare versions byte for byte;
* a failed transaction or statement leaves the bookkeeping tables as
  they were.
-/

namespace migrator

/-! ## Go strings -/

/-- A Go `string`: an immutable sequence of bytes. -/
abbrev GoString := List Nat

/-- The bytes of an ASCII literal of the source. -/
def ascii (s : String) : GoString := s.toList.map Char.toNat

/-- Go's `a < b` on strings: the first differing byte decides, and a proper
prefix is smaller. -/
def strLess : GoString → GoString → Bool
  | [], [] => false
  | [], _ :: _ => true
  | _ :: _, [] => false
  | a :: as, b :: bs =>
    if a < b then true else if b < a then false else strLess as bs

/-- The order `sort.Strings` sorts into: `a` may stand before `b` when
`b < a` is false. -/
def strLE (a b : GoString) : Prop := strLess b a = false

instance : DecidableRel strLE := fun a b => by
  unfold strLE
  exact inferInstance

/-- `strings.HasSuffix(s, suffix)`. -/
def HasSuffix (s suffix : GoString) : Bool :=
  suffix.length ≤ s.length && s.drop (s.length - suffix.length) == suffix

/-- `sort.Strings`: sorts into ascending order by `<`.  The library routine
is modelled by insertion sort; `sortStrings_unique` shows that every sorted
rearrangement is this list. -/
def sortStrings (l : List GoString) : List GoString :=
  l.insertionSort strLE

/-- The literal `".up.sql"`. -/
def upSuffix : GoString := ascii ".up.sql"

/-! ## Errors -/

/-- The `error` values that flow through the package. -/
inductive Err where
  /-- An error returned by `os.ReadDir` or `os.ReadFile`. -/
  | io (code : Nat)
  /-- An error returned by the database driver (transport failure, failed
  script statement). -/
  | storage (code : Nat)
  /-- The driver's error for a statement on a table that does not exist. -/
  | noSuchTable
  /-- The driver's error for an insert that violates `UNIQUE KEY (version)`. -/
  | duplicateEntry
  /-- The value `errors.New("migrations are already in progress by another service")`. -/
  | alreadyInProgress
  /-- The value `fmt.Errorf("unable to acquire lock: %w", err)`. -/
  | lockWrap (cause : Err)
  /-- The value `fmt.Errorf("failed to apply migration %s: %w", migration, err)`. -/
  | applyWrap (migration : GoString) (cause : Err)
  deriving DecidableEq, Repr

/-! ## Database state -/

/-- The row `id = 1` of `migrations_lock`. -/
structure LockRow where
  locked : Bool
  locked_at : Option Nat
  locked_by : Option GoString
  deriving DecidableEq, Repr

/-- The state the package observes.  `none` for a table means that the
table does not exist. -/
structure DB where
  /-- Table `migrations_lock`: whether it exists, and its row `id = 1`. -/
  lockTable : Option (Option LockRow)
  /-- Table `migrations`: the `version` column, in insertion order. -/
  migrations : Option (List GoString)
  /-- Ghost trace: the file names whose content was passed to `db.Exec`. -/
  executed : List GoString
  deriving DecidableEq, Repr

/-- The database operations at which a transport failure can occur. -/
inductive Op where
  | createLockTable
  | createMigrationsTable
  | begin
  | selectLock
  | insertLock
  | updateLock
  | commit
  | unlock
  | selectExists (version : GoString)
  | insertVersion (version : GoString)
  deriving DecidableEq, Repr

/-- What the outside world decides during one call. -/
structure Env where
  /-- The result of `os.ReadDir(path)`: the entry names. -/
  readDir : GoString → Except Err (List GoString)
  /-- The result of `os.ReadFile(filepath.Join(path, filename))`. -/
  readFile : GoString → GoString → Except Err GoString
  /-- The outcome of `db.Exec(string(content))`. -/
  script : GoString → Option Err
  /-- The value of `time.Now()` in the insert of `Lock`. -/
  nowInsert : Nat
  /-- The value of `time.Now()` in the update of `Lock`. -/
  nowUpdate : Nat
  /-- A transport failure at a database operation. -/
  fault : Op → Option Err

/-- The struct `Migrator` without its connection handle, which is the `DB`
argument of every operation. -/
structure Migrator where
  serviceID : GoString
  path : GoString
  deriving DecidableEq, Repr

/-! ## Operations -/

/-- `NewMigrator`. -/
def NewMigrator (serviceID path : GoString) : Migrator :=
  { serviceID := serviceID, path := path }

/-- `InitSchema`: two `CREATE TABLE IF NOT EXISTS` statements. -/
def InitSchema (env : Env) (_m : Migrator) (s : DB) : Option Err × DB :=
  match env.fault .createLockTable with
  | some e => (some e, s)
  | none =>
    let s1 : DB := { s with lockTable := some (s.lockTable.getD none) }
    match env.fault .createMigrationsTable with
    | some e => (some e, s1)
    | none => (none, { s1 with migrations := some (s1.migrations.getD []) })

/-- `getPendingMigrations`. -/
def getPendingMigrations (env : Env) (m : Migrator) : Except Err (List GoString) :=
  match env.readDir m.path with
  | .error e => .error e
  | .ok files => .ok (sortStrings (files.filter fun name => HasSuffix name upSuffix))

/-- `applyFileMigration`. -/
def applyFileMigration (env : Env) (m : Migrator) (s : DB) (filename : GoString) :
    Option Err × DB :=
  match env.readFile m.path filename with
  | .error e => (some e, s)
  | .ok content =>
    let s1 : DB := { s with executed := s.executed ++ [filename] }
    match env.script content with
    | some e => (some e, s1)
    | none =>
      match env.fault (.insertVersion filename) with
      | some e => (some e, s1)
      | none =>
        match s1.migrations with
        | none => (some .noSuchTable, s1)
        | some vs =>
          if filename ∈ vs then (some .duplicateEntry, s1)
          else (none, { s1 with migrations := some (vs ++ [filename]) })

/-- The part of `Lock` after the `SELECT`: `locked` is the scanned variable,
`row` the content of row 1 inside the transaction. -/
def lockFinish (env : Env) (m : Migrator) (s : DB) (row : LockRow) (locked : Bool) :
    Option Err × DB :=
  if locked then (some .alreadyInProgress, s)
  else
    match env.fault .updateLock with
    | some e => (some e, s)
    | none =>
      match env.fault .commit with
      | some e => (some e, s)
      | none =>
        (none, { s with lockTable := some (some
          { row with locked := true, locked_at := some env.nowUpdate,
                     locked_by := some m.serviceID }) })

/-- `Lock`.  Every return before `tx.Commit()` runs the deferred
`tx.Rollback()`, so the state is the one before the call. -/
def Lock (env : Env) (m : Migrator) (s : DB) : Option Err × DB :=
  match env.fault .begin with
  | some e => (some e, s)
  | none =>
    match env.fault .selectLock with
    | some e => (some e, s)
    | none =>
      match s.lockTable with
      | none => (some .noSuchTable, s)
      | some none =>
        -- `sql.ErrNoRows`: the row is inserted, `locked` keeps its zero value
        match env.fault .insertLock with
        | some e => (some e, s)
        | none =>
          lockFinish env m s
            { locked := true, locked_at := some env.nowInsert,
              locked_by := some m.serviceID } false
      | some (some row) => lockFinish env m s row row.locked

/-- `Unlock`. -/
def Unlock (env : Env) (_m : Migrator) (s : DB) : Option Err × DB :=
  match env.fault .unlock with
  | some e => (some e, s)
  | none =>
    match s.lockTable with
    | none => (some .noSuchTable, s)
    | some none => (none, s)
    | some (some _) =>
      (none, { s with lockTable := some (some
        { locked := false, locked_at := none, locked_by := none }) })

/-- `isMigrationApplied`: a failed query is logged and leaves `exists` at
its zero value. -/
def isMigrationApplied (env : Env) (_m : Migrator) (s : DB) (version : GoString) : Bool :=
  match env.fault (.selectExists version) with
  | some _ => false
  | none =>
    match s.migrations with
    | none => false
    | some vs => decide (version ∈ vs)

/-- The `for` loop of `ApplyMigrations`. -/
def applyLoop (env : Env) (m : Migrator) : List GoString → DB → Option Err × DB
  | [], s => (none, s)
  | migration :: rest, s =>
    if isMigrationApplied env m s migration then applyLoop env m rest s
    else
      match applyFileMigration env m s migration with
      | (some e, s1) => (some (.applyWrap migration e), s1)
      | (none, s1) => applyLoop env m rest s1

/-- The body of `ApplyMigrations` after `defer m.Unlock()`. -/
def applyBody (env : Env) (m : Migrator) (s : DB) : Option Err × DB :=
  match getPendingMigrations env m with
  | .error e => (some e, s)
  | .ok pendingMigrations => applyLoop env m pendingMigrations s

/-- `ApplyMigrations`.  The deferred `m.Unlock()` runs on every return
after a successful `Lock`; its error is discarded. -/
def ApplyMigrations (env : Env) (m : Migrator) (s : DB) : Option Err × DB :=
  match Lock env m s with
  | (some e, s1) => (some (.lockWrap e), s1)
  | (none, s1) =>
    let r := applyBody env m s1
    (r.1, (Unlock env m r.2).2)

/-! ## Vocabulary of the statements -/

/-- No transport failure at any database operation. -/
def NoFaults (env : Env) : Prop := ∀ op, env.fault op = none

/-- The cleared lock row written by `Unlock`. -/
def clearedRow : LockRow := { locked := false, locked_at := none, locked_by := none }

/-- The lock table exists and row 1 is absent or has `locked = false`. -/
def LockFree (s : DB) : Prop :=
  s.lockTable = some none ∨ ∃ row, s.lockTable = some (some row) ∧ row.locked = false

/-- The ledger holds no version twice (what `UNIQUE KEY (version)` enforces). -/
def LedgerUnique (s : DB) : Prop := ∀ vs, s.migrations = some vs → vs.Nodup

/-- A version is recorded in the ledger. -/
def Applied (s : DB) (v : GoString) : Prop := ∃ vs, s.migrations = some vs ∧ v ∈ vs

/-- An environment without failures: an empty directory, empty files,
scripts that succeed. -/
def quietEnv : Env :=
  { readDir := fun _ => .ok []
    readFile := fun _ _ => .ok []
    script := fun _ => none
    nowInsert := 0
    nowUpdate := 0
    fault := fun _ => none }

/-! ## Concrete data for the instances -/

/-- Three units whose lexical and numeric orders differ, in listing order. -/
def demoFiles : List GoString :=
  [ascii "0001_a.up.sql", ascii "0010_b.up.sql", ascii "0002_c.up.sql"]

/-- A migrator named `svc-B` on the directory `db`. -/
def demoMigrator : Migrator := NewMigrator (ascii "svc-B") (ascii "db")

/-- A database with both tables, no lock row, an empty ledger. -/
def emptyDB : DB := { lockTable := some none, migrations := some [], executed := [] }

/-- A database without the two tables. -/
def freshDB : DB := { lockTable := none, migrations := none, executed := [] }

/-- A database whose lock is held by `holder`. -/
def heldBy (holder : GoString) : DB :=
  { lockTable := some (some { locked := true, locked_at := some 7, locked_by := some holder })
    migrations := some [ascii "0001_a.up.sql"]
    executed := [] }

/-- The directory holds `demoFiles` and a rollback file; every script succeeds. -/
def demoEnv : Env :=
  { quietEnv with readDir := fun _ => .ok (ascii "0001_a.down.sql" :: demoFiles) }

/-- The environment `demoEnv`, except that the script of `bad` fails.  A
script's text is the name of its file. -/
def failingEnv (bad : GoString) : Env :=
  { demoEnv with
    readFile := fun _ name => .ok name
    script := fun content => if content = bad then some (.storage 1064) else none }

/-- An environment whose directory cannot be listed. -/
def unreadableEnv : Env := { quietEnv with readDir := fun _ => .error (.io 2) }

/-! ## The order of `sort.Strings` -/

theorem strLess_asymm : ∀ a b : GoString, strLess a b = true → strLess b a = false
  | [], [], h => by simp [strLess] at h
  | [], _ :: _, _ => by simp [strLess]
  | _ :: _, [], h => by simp [strLess] at h
  | x :: xs, y :: ys, h => by
    simp only [strLess] at h ⊢
    by_cases hxy : x < y
    · have : ¬ y < x := by omega
      simp [this, hxy]
    · by_cases hyx : y < x
      · simp [hxy, hyx] at h
      · simp only [hxy, hyx, if_false] at h ⊢
        exact strLess_asymm xs ys h

theorem strLess_eq_of_not : ∀ a b : GoString,
    strLess a b = false → strLess b a = false → a = b
  | [], [], _, _ => rfl
  | [], _ :: _, h, _ => by simp [strLess] at h
  | _ :: _, [], _, h => by simp [strLess] at h
  | x :: xs, y :: ys, h1, h2 => by
    simp only [strLess] at h1 h2
    by_cases hxy : x < y
    · simp [hxy] at h1
    · by_cases hyx : y < x
      · simp [hyx] at h2
      · simp only [hxy, hyx, if_false] at h1 h2
        have hx : x = y := by omega
        rw [hx, strLess_eq_of_not xs ys h1 h2]

theorem strLess_trans : ∀ a b c : GoString,
    strLess a b = true → strLess b c = true → strLess a c = true
  | [], _, [], _, h => by cases ‹GoString› <;> simp [strLess] at h
  | [], _, _ :: _, _, _ => by simp [strLess]
  | _ :: _, [], _, h, _ => by simp [strLess] at h
  | _ :: _, _ :: _, [], _, h => by simp [strLess] at h
  | x :: xs, y :: ys, z :: zs, h1, h2 => by
    simp only [strLess] at h1 h2 ⊢
    by_cases hxy : x < y
    · by_cases hyz : y < z
      · have : x < z := by omega
        simp [this]
      · by_cases hzy : z < y
        · simp [hyz, hzy] at h2
        · have : x < z := by omega
          simp [this]
    · by_cases hyx : y < x
      · simp [hxy, hyx] at h1
      · simp only [hxy, hyx, if_false] at h1
        have hx : x = y := by omega
        subst hx
        by_cases hxz : x < z
        · simp [hxz]
        · by_cases hzx : z < x
          · simp [hxz, hzx] at h2
          · simp only [hxz, hzx, if_false] at h2 ⊢
            exact strLess_trans xs ys zs h1 h2

theorem strLE_total : IsTotal GoString strLE where
  total a b := by
    unfold strLE
    cases h : strLess b a
    · exact Or.inl rfl
    · exact Or.inr (strLess_asymm b a h)

theorem strLE_antisymm : IsAntisymm GoString strLE where
  antisymm a b hab hba := strLess_eq_of_not a b hba hab

theorem strLE_trans : IsTrans GoString strLE where
  trans a b c hab hbc := by
    unfold strLE at *
    cases hca : strLess c a
    · rfl
    · -- c < a and not b < a, so c < b after all
      cases hcb : strLess c b
      · cases hab2 : strLess a b
        · have := strLess_eq_of_not a b hab2 hab
          subst this
          rw [hca] at hcb
          cases hcb
        · have := strLess_trans c a b hca hab2
          rw [this] at hcb
          cases hcb
      · rw [hcb] at hbc
        cases hbc

theorem sortStrings_sorted (l : List GoString) : (sortStrings l).Sorted strLE :=
  haveI := strLE_total
  haveI := strLE_trans
  List.sorted_insertionSort strLE l

theorem sortStrings_perm (l : List GoString) : (sortStrings l).Perm l :=
  List.perm_insertionSort strLE l

/-- Every sorted rearrangement of `l` is `sortStrings l`. -/
theorem sortStrings_unique (l r : List GoString) (hp : r.Perm l) (hs : r.Sorted strLE) :
    r = sortStrings l :=
  haveI := strLE_antisymm
  List.eq_of_perm_of_sorted (hp.trans (sortStrings_perm l).symm) hs (sortStrings_sorted l)

theorem sortStrings_congr (l l' : List GoString) (hp : l'.Perm l) :
    sortStrings l' = sortStrings l :=
  sortStrings_unique l (sortStrings l') ((sortStrings_perm l').trans hp)
    (sortStrings_sorted l')

theorem HasSuffix_iff (s suffix : GoString) :
    HasSuffix s suffix = true ↔ ∃ front, s = front ++ suffix := by
  unfold HasSuffix
  constructor
  · intro h
    simp only [Bool.and_eq_true, decide_eq_true_eq, beq_iff_eq] at h
    exact ⟨s.take (s.length - suffix.length), by
      conv_lhs => rw [← List.take_append_drop (s.length - suffix.length) s]
      rw [h.2]⟩
  · rintro ⟨front, rfl⟩
    simp

/-! ## Lock and Unlock -/

theorem Lock_migrations (env : Env) (m : Migrator) (s : DB) :
    (Lock env m s).2.migrations = s.migrations := by
  unfold Lock lockFinish
  repeat' split
  all_goals rfl

theorem Lock_executed (env : Env) (m : Migrator) (s : DB) :
    (Lock env m s).2.executed = s.executed := by
  unfold Lock lockFinish
  repeat' split
  all_goals rfl

/-- A refused or failed `Lock` leaves the database as it was. -/
theorem Lock_err_state (env : Env) (m : Migrator) (s : DB)
    (h : (Lock env m s).1 ≠ none) : (Lock env m s).2 = s := by
  revert h
  unfold Lock lockFinish
  repeat' split
  all_goals simp

/-- A held lock is refused, whatever the environment does. -/
theorem Lock_held (env : Env) (m : Migrator) (s : DB) (row : LockRow)
    (hrow : s.lockTable = some (some row)) (hl : row.locked = true) :
    (Lock env m s).1 ≠ none := by
  unfold Lock lockFinish
  rw [hrow]
  simp only [hl]
  repeat' split
  all_goals simp_all

/-- With the transport working, a held lock is refused with the fixed error. -/
theorem Lock_held_eq (env : Env) (m : Migrator) (s : DB) (row : LockRow)
    (hrow : s.lockTable = some (some row)) (hl : row.locked = true)
    (hb : env.fault .begin = none) (hs : env.fault .selectLock = none) :
    Lock env m s = (some .alreadyInProgress, s) := by
  unfold Lock lockFinish
  rw [hrow, hb, hs]
  simp [hl]

/-- The state a successful `Lock` produces. -/
theorem Lock_ok_state (env : Env) (m : Migrator) (s : DB)
    (h : (Lock env m s).1 = none) :
    (Lock env m s).2 = { s with lockTable := some (some
      { locked := true, locked_at := some env.nowUpdate,
        locked_by := some m.serviceID }) } := by
  revert h
  unfold Lock lockFinish
  repeat' split
  all_goals simp

theorem Lock_ok_free (env : Env) (m : Migrator) (s : DB)
    (h : (Lock env m s).1 = none) : LockFree s := by
  revert h
  unfold Lock lockFinish LockFree
  repeat' split
  all_goals simp_all

/-- A free lock is acquired when the transport works. -/
theorem Lock_of_free (env : Env) (m : Migrator) (s : DB) (hfree : LockFree s)
    (hf : NoFaults env) : (Lock env m s).1 = none := by
  unfold Lock lockFinish
  rw [hf .begin, hf .selectLock, hf .insertLock, hf .updateLock, hf .commit]
  rcases hfree with h | ⟨row, h, hl⟩
  · rw [h]
    simp
  · rw [h]
    simp [hl]

theorem Unlock_migrations (env : Env) (m : Migrator) (s : DB) :
    (Unlock env m s).2.migrations = s.migrations := by
  unfold Unlock
  repeat' split
  all_goals rfl

theorem Unlock_executed (env : Env) (m : Migrator) (s : DB) :
    (Unlock env m s).2.executed = s.executed := by
  unfold Unlock
  repeat' split
  all_goals rfl

theorem Unlock_row (env : Env) (m : Migrator) (s : DB) (row : LockRow)
    (hrow : s.lockTable = some (some row)) (hf : env.fault .unlock = none) :
    Unlock env m s = (none, { s with lockTable := some (some clearedRow) }) := by
  unfold Unlock
  rw [hf, hrow]
  rfl

theorem Unlock_idem (env : Env) (m : Migrator) (s : DB) :
    (Unlock env m (Unlock env m s).2).2 = (Unlock env m s).2 := by
  unfold Unlock
  repeat' split
  all_goals simp_all

/-! ## The apply loop -/

theorem applyFile_lockTable (env : Env) (m : Migrator) (s : DB) (f : GoString) :
    (applyFileMigration env m s f).2.lockTable = s.lockTable := by
  unfold applyFileMigration
  dsimp only
  repeat' split
  all_goals rfl

theorem applyLoop_lockTable (env : Env) (m : Migrator) :
    ∀ (ps : List GoString) (s : DB), (applyLoop env m ps s).2.lockTable = s.lockTable
  | [], _ => rfl
  | f :: rest, s => by
    unfold applyLoop
    split
    · exact applyLoop_lockTable env m rest s
    · have hf := applyFile_lockTable env m s f
      split
      · rename_i heq
        rw [heq] at hf
        exact hf
      · rename_i heq
        rw [heq] at hf
        rw [applyLoop_lockTable env m rest]
        exact hf

theorem applyBody_lockTable (env : Env) (m : Migrator) (s : DB) :
    (applyBody env m s).2.lockTable = s.lockTable := by
  unfold applyBody
  split
  · rfl
  · exact applyLoop_lockTable env m _ s

/-- The three outcomes of `applyFileMigration`: the file is unreadable, the
script or the insert fails after the script was submitted, or both succeed. -/
theorem applyFile_spec (env : Env) (m : Migrator) (s : DB) (f : GoString) :
    ((applyFileMigration env m s f).1 ≠ none ∧
      ((applyFileMigration env m s f).2 = s ∨
       (applyFileMigration env m s f).2 = { s with executed := s.executed ++ [f] })) ∨
    (∃ vs, s.migrations = some vs ∧ f ∉ vs ∧
      applyFileMigration env m s f =
        (none, { s with executed := s.executed ++ [f], migrations := some (vs ++ [f]) })) := by
  unfold applyFileMigration
  dsimp only
  repeat' split
  all_goals simp_all

theorem applyFile_ok (env : Env) (m : Migrator) (s : DB) (f c : GoString)
    (vs : List GoString) (hr : env.readFile m.path f = .ok c) (hs : env.script c = none)
    (hi : env.fault (.insertVersion f) = none) (hm : s.migrations = some vs)
    (hn : f ∉ vs) :
    applyFileMigration env m s f =
      (none, { s with executed := s.executed ++ [f], migrations := some (vs ++ [f]) }) := by
  unfold applyFileMigration
  rw [hr]
  dsimp only
  rw [hs, hi, hm]
  simp [hn]

theorem applyFile_script_fails (env : Env) (m : Migrator) (s : DB) (f c : GoString)
    (e : Err) (hr : env.readFile m.path f = .ok c) (hs : env.script c = some e) :
    applyFileMigration env m s f = (some e, { s with executed := s.executed ++ [f] }) := by
  unfold applyFileMigration
  rw [hr]
  dsimp only
  rw [hs]

theorem applyFile_mono (env : Env) (m : Migrator) (s : DB) (f v : GoString)
    (h : Applied s v) : Applied (applyFileMigration env m s f).2 v := by
  rcases applyFile_spec env m s f with ⟨_, h1 | h1⟩ | ⟨vs, hm, _, h1⟩
  · rw [h1]
    exact h
  · rw [h1]
    exact h
  · rw [h1]
    obtain ⟨ws, hw, hv⟩ := h
    rw [hm] at hw
    cases hw
    exact ⟨vs ++ [f], rfl, List.mem_append_left _ hv⟩

theorem applyFile_applied (env : Env) (m : Migrator) (s : DB) (f : GoString)
    (h : (applyFileMigration env m s f).1 = none) :
    Applied (applyFileMigration env m s f).2 f := by
  rcases applyFile_spec env m s f with ⟨hne, _⟩ | ⟨vs, _, _, h1⟩
  · exact absurd h hne
  · rw [h1]
    exact ⟨vs ++ [f], rfl, by simp⟩

theorem applyFile_unique (env : Env) (m : Migrator) (s : DB) (f : GoString)
    (h : LedgerUnique s) : LedgerUnique (applyFileMigration env m s f).2 := by
  rcases applyFile_spec env m s f with ⟨_, h1 | h1⟩ | ⟨vs, hm, hn, h1⟩
  · rw [h1]
    exact h
  · rw [h1]
    exact h
  · rw [h1]
    intro ws hw
    simp only [Option.some.injEq] at hw
    subst hw
    exact List.Nodup.append (h vs hm) (List.nodup_singleton f) (by simpa using hn)

theorem applyFile_executed (env : Env) (m : Migrator) (s : DB) (f : GoString) :
    ∃ l, (applyFileMigration env m s f).2.executed = s.executed ++ l ∧ l.Sublist [f] := by
  rcases applyFile_spec env m s f with ⟨_, h1 | h1⟩ | ⟨vs, _, _, h1⟩
  · exact ⟨[], by rw [h1]; simp, by simp⟩
  · exact ⟨[f], by rw [h1], List.Sublist.refl _⟩
  · exact ⟨[f], by rw [h1], List.Sublist.refl _⟩

/-- One step of the loop, for a unit the ledger check reports as applied. -/
theorem applyLoop_cons_skip (env : Env) (m : Migrator) (f : GoString)
    (rest : List GoString) (s : DB) (h : isMigrationApplied env m s f = true) :
    applyLoop env m (f :: rest) s = applyLoop env m rest s := by
  rw [applyLoop, if_pos h]

/-- One step of the loop, for a unit that is applied successfully. -/
theorem applyLoop_cons_ok (env : Env) (m : Migrator) (f : GoString)
    (rest : List GoString) (s s1 : DB) (h : isMigrationApplied env m s f = false)
    (ha : applyFileMigration env m s f = (none, s1)) :
    applyLoop env m (f :: rest) s = applyLoop env m rest s1 := by
  rw [applyLoop, ha]
  simp [h]

/-- One step of the loop, for a unit whose application fails. -/
theorem applyLoop_cons_err (env : Env) (m : Migrator) (f : GoString)
    (rest : List GoString) (s s1 : DB) (e : Err)
    (h : isMigrationApplied env m s f = false)
    (ha : applyFileMigration env m s f = (some e, s1)) :
    applyLoop env m (f :: rest) s = (some (.applyWrap f e), s1) := by
  rw [applyLoop, ha]
  simp [h]

/-- The loop takes one of its three steps at every unit. -/
theorem applyLoop_cons_cases (env : Env) (m : Migrator) (f : GoString)
    (rest : List GoString) (s : DB) :
    (isMigrationApplied env m s f = true ∧
      applyLoop env m (f :: rest) s = applyLoop env m rest s) ∨
    ((applyFileMigration env m s f).1 = none ∧
      applyLoop env m (f :: rest) s =
        applyLoop env m rest (applyFileMigration env m s f).2) ∨
    (∃ e, (applyFileMigration env m s f).1 = some e ∧
      applyLoop env m (f :: rest) s =
        (some (.applyWrap f e), (applyFileMigration env m s f).2)) := by
  cases h : isMigrationApplied env m s f
  · rcases hr : applyFileMigration env m s f with ⟨_ | e, s1⟩
    · exact Or.inr (Or.inl ⟨rfl, applyLoop_cons_ok env m f rest s s1 h hr⟩)
    · exact Or.inr (Or.inr ⟨e, rfl, applyLoop_cons_err env m f rest s s1 e h hr⟩)
  · exact Or.inl ⟨rfl, applyLoop_cons_skip env m f rest s h⟩

theorem isApplied_iff (env : Env) (m : Migrator) (s : DB) (v : GoString)
    (hf : env.fault (.selectExists v) = none) :
    isMigrationApplied env m s v = true ↔ Applied s v := by
  unfold isMigrationApplied Applied
  rw [hf]
  cases s.migrations <;> simp

theorem isApplied_applied (env : Env) (m : Migrator) (s : DB) (v : GoString)
    (h : isMigrationApplied env m s v = true) : Applied s v := by
  revert h
  unfold isMigrationApplied Applied
  repeat' split
  all_goals simp_all

theorem applyLoop_mono (env : Env) (m : Migrator) (v : GoString) :
    ∀ (ps : List GoString) (s : DB), Applied s v → Applied (applyLoop env m ps s).2 v
  | [], _, h => h
  | f :: rest, s, h => by
    rcases applyLoop_cons_cases env m f rest s with ⟨_, h1⟩ | ⟨_, h1⟩ | ⟨e, _, h1⟩
    · rw [h1]
      exact applyLoop_mono env m v rest s h
    · rw [h1]
      exact applyLoop_mono env m v rest _ (applyFile_mono env m s f v h)
    · rw [h1]
      exact applyFile_mono env m s f v h

theorem applyLoop_unique (env : Env) (m : Migrator) :
    ∀ (ps : List GoString) (s : DB), LedgerUnique s → LedgerUnique (applyLoop env m ps s).2
  | [], _, h => h
  | f :: rest, s, h => by
    rcases applyLoop_cons_cases env m f rest s with ⟨_, h1⟩ | ⟨_, h1⟩ | ⟨e, _, h1⟩
    · rw [h1]
      exact applyLoop_unique env m rest s h
    · rw [h1]
      exact applyLoop_unique env m rest _ (applyFile_unique env m s f h)
    · rw [h1]
      exact applyFile_unique env m s f h

/-- The scripts the loop submits are a subsequence of the units it is given,
in their order. -/
theorem applyLoop_executed (env : Env) (m : Migrator) :
    ∀ (ps : List GoString) (s : DB),
      ∃ l, (applyLoop env m ps s).2.executed = s.executed ++ l ∧ l.Sublist ps
  | [], s => ⟨[], by simp [applyLoop], List.Sublist.refl _⟩
  | f :: rest, s => by
    obtain ⟨l0, hl0, hs0⟩ := applyFile_executed env m s f
    rcases applyLoop_cons_cases env m f rest s with ⟨_, h1⟩ | ⟨_, h1⟩ | ⟨e, _, h1⟩
    · obtain ⟨l, hl, hs⟩ := applyLoop_executed env m rest s
      exact ⟨l, by rw [h1, hl], hs.cons f⟩
    · obtain ⟨l, hl, hs⟩ := applyLoop_executed env m rest (applyFileMigration env m s f).2
      refine ⟨l0 ++ l, by rw [h1, hl, hl0, List.append_assoc], ?_⟩
      have := List.Sublist.append hs0 hs
      simpa using this
    · refine ⟨l0, by rw [h1, hl0], ?_⟩
      exact hs0.trans (by simp)

/-- After a loop that returned no error every unit is in the ledger. -/
theorem applyLoop_applied (env : Env) (m : Migrator) :
    ∀ (ps : List GoString) (s : DB), (applyLoop env m ps s).1 = none →
      ∀ f ∈ ps, Applied (applyLoop env m ps s).2 f
  | [], _, _, f, hf => by cases hf
  | g :: rest, s, h, f, hf => by
    rcases applyLoop_cons_cases env m g rest s with ⟨hg, h1⟩ | ⟨ha, h1⟩ | ⟨e, _, h1⟩
    · rw [h1] at h ⊢
      rcases List.mem_cons.1 hf with rfl | hf
      · exact applyLoop_mono env m f rest s (isApplied_applied env m s f hg)
      · exact applyLoop_applied env m rest s h f hf
    · rw [h1] at h ⊢
      rcases List.mem_cons.1 hf with rfl | hf
      · exact applyLoop_mono env m f rest _ (applyFile_applied env m s f ha)
      · exact applyLoop_applied env m rest _ h f hf
    · rw [h1] at h
      cases h

/-- With the ledger query working, units already in the ledger are skipped. -/
theorem applyLoop_skip (env : Env) (m : Migrator) :
    ∀ (ps : List GoString) (s : DB),
      (∀ f ∈ ps, env.fault (.selectExists f) = none ∧ Applied s f) →
      applyLoop env m ps s = (none, s)
  | [], _, _ => rfl
  | f :: rest, s, h => by
    have hf := h f (List.mem_cons_self f rest)
    rw [applyLoop_cons_skip env m f rest s ((isApplied_iff env m s f hf.1).2 hf.2)]
    exact applyLoop_skip env m rest s fun g hg => h g (List.mem_cons_of_mem f hg)

/-- The loop over a concatenation continues where the first part stopped. -/
theorem applyLoop_append (env : Env) (m : Migrator) (b : List GoString) :
    ∀ (a : List GoString) (s s1 : DB), applyLoop env m a s = (none, s1) →
      applyLoop env m (a ++ b) s = applyLoop env m b s1
  | [], s, s1, h => by
    simp only [applyLoop, Prod.mk.injEq, true_and] at h
    subst h
    rfl
  | f :: rest, s, s1, h => by
    rw [List.cons_append]
    rcases applyLoop_cons_cases env m f rest s with ⟨hg, h1⟩ | ⟨ha, h1⟩ | ⟨e, _, h1⟩
    · rw [h1] at h
      rw [applyLoop_cons_skip env m f (rest ++ b) s hg]
      exact applyLoop_append env m b rest s s1 h
    · rw [h1] at h
      have hq : isMigrationApplied env m s f = false := by
        cases hq : isMigrationApplied env m s f
        · rfl
        · exfalso
          have hA := isApplied_applied env m s f hq
          rcases applyFile_spec env m s f with ⟨hne, _⟩ | ⟨vs, hm, hn, _⟩
          · exact hne ha
          · obtain ⟨ws, hw, hv⟩ := hA
            rw [hm] at hw
            cases hw
            exact hn hv
      rw [applyLoop_cons_ok env m f (rest ++ b) s (applyFileMigration env m s f).2 hq
        (Prod.ext ha rfl)]
      exact applyLoop_append env m b rest _ s1 h
    · rw [h1] at h
      cases h

/-- With the transport working and every new script readable and
successful, the loop applies exactly the units that are not in the ledger,
in the order given. -/
theorem applyLoop_ok (env : Env) (m : Migrator) (hf : NoFaults env) :
    ∀ (ps : List GoString) (s : DB) (vs : List GoString),
      s.migrations = some vs → ps.Nodup →
      (∀ f ∈ ps, f ∉ vs → ∃ c, env.readFile m.path f = .ok c ∧ env.script c = none) →
      applyLoop env m ps s =
        (none, { s with migrations := some (vs ++ ps.filter fun f => decide (f ∉ vs)),
                        executed := s.executed ++ ps.filter fun f => decide (f ∉ vs) })
  | [], s, vs, hm, _, _ => by
    cases s
    simp_all [applyLoop]
  | f :: rest, s, vs, hm, hnd, hok => by
    have hnd2 := List.nodup_cons.1 hnd
    by_cases hv : f ∈ vs
    · rw [applyLoop_cons_skip env m f rest s
        ((isApplied_iff env m s f (hf _)).2 ⟨vs, hm, hv⟩)]
      rw [applyLoop_ok env m hf rest s vs hm hnd2.2
        fun g hg => hok g (List.mem_cons_of_mem f hg)]
      simp [hv]
    · obtain ⟨c, hr, hs⟩ := hok f (List.mem_cons_self f rest) hv
      have hq : isMigrationApplied env m s f = false := by
        cases hq : isMigrationApplied env m s f
        · rfl
        · obtain ⟨ws, hw, hv2⟩ := isApplied_applied env m s f hq
          rw [hm] at hw
          cases hw
          exact absurd hv2 hv
      rw [applyLoop_cons_ok env m f rest s _ hq
        (applyFile_ok env m s f c vs hr hs (hf _) hm hv)]
      rw [applyLoop_ok env m hf rest _ (vs ++ [f]) rfl hnd2.2
        fun g hg hgv => hok g (List.mem_cons_of_mem f hg)
          fun h => hgv (List.mem_append_left _ h)]
      have hfilter : (rest.filter fun g => decide (g ∉ vs ++ [f])) =
          rest.filter fun g => decide (g ∉ vs) := by
        apply List.filter_congr
        intro g hg
        have : g ≠ f := fun h => hnd2.1 (h ▸ hg)
        simp [this]
      rw [hfilter]
      simp [hv]

/-! ## ApplyMigrations -/

theorem ApplyMigrations_lock_err (env : Env) (m : Migrator) (s : DB) (e : Err)
    (h : (Lock env m s).1 = some e) :
    ApplyMigrations env m s = (some (.lockWrap e), s) := by
  have hs := Lock_err_state env m s (by rw [h]; simp)
  unfold ApplyMigrations
  rcases hL : Lock env m s with ⟨_ | e1, s1⟩
  · rw [hL] at h
    cases h
  · rw [hL] at h hs
    simp only [Option.some.injEq] at h hs
    subst h
    subst hs
    rfl

theorem ApplyMigrations_lock_ok (env : Env) (m : Migrator) (s : DB)
    (h : (Lock env m s).1 = none) :
    ApplyMigrations env m s =
      ((applyBody env m (Lock env m s).2).1,
       (Unlock env m (applyBody env m (Lock env m s).2).2).2) := by
  unfold ApplyMigrations
  rcases hL : Lock env m s with ⟨_ | e1, s1⟩
  · rfl
  · rw [hL] at h
    cases h

theorem applyBody_unique (env : Env) (m : Migrator) (s : DB) (h : LedgerUnique s) :
    LedgerUnique (applyBody env m s).2 := by
  unfold applyBody
  split
  · exact h
  · exact applyLoop_unique env m _ s h

theorem ApplyMigrations_unique (env : Env) (m : Migrator) (s : DB) (h : LedgerUnique s) :
    LedgerUnique (ApplyMigrations env m s).2 := by
  rcases hL : (Lock env m s).1 with _ | e
  · rw [ApplyMigrations_lock_ok env m s hL]
    intro vs hvs
    rw [Unlock_migrations] at hvs
    refine applyBody_unique env m _ ?_ vs hvs
    intro ws hws
    rw [Lock_migrations] at hws
    exact h ws hws
  · rw [ApplyMigrations_lock_err env m s e hL]
    exact h

/-- A run on a free lock, with the transport working and every new script
readable and successful: the units that are not in the ledger are applied
in the order of `getPendingMigrations`, and the lock is cleared. -/
theorem ApplyMigrations_ok (env : Env) (m : Migrator) (s : DB) (vs ps : List GoString)
    (hfree : LockFree s) (hf : NoFaults env) (hm : s.migrations = some vs)
    (hp : getPendingMigrations env m = .ok ps) (hnd : ps.Nodup)
    (hok : ∀ f ∈ ps, f ∉ vs → ∃ c, env.readFile m.path f = .ok c ∧ env.script c = none) :
    ApplyMigrations env m s =
      (none, { lockTable := some (some clearedRow)
               migrations := some (vs ++ ps.filter fun f => decide (f ∉ vs))
               executed := s.executed ++ ps.filter fun f => decide (f ∉ vs) }) := by
  have hL := Lock_of_free env m s hfree hf
  rw [ApplyMigrations_lock_ok env m s hL, Lock_ok_state env m s hL]
  unfold applyBody
  rw [hp]
  dsimp only
  rw [applyLoop_ok env m hf ps
    { lockTable := some (some
        { locked := true, locked_at := some env.nowUpdate, locked_by := some m.serviceID })
      migrations := s.migrations
      executed := s.executed } vs hm hnd hok]
  dsimp only
  rw [Unlock_row env m _ _ rfl (hf _)]

theorem InitSchema_ok (env : Env) (m : Migrator) (s : DB) (hf : NoFaults env) :
    InitSchema env m s =
      (none, { lockTable := some (s.lockTable.getD none)
               migrations := some (s.migrations.getD [])
               executed := s.executed }) := by
  unfold InitSchema
  rw [hf .createLockTable, hf .createMigrationsTable]

/-- A run on a cleared lock, with the transport working and every listed
unit already in the ledger, changes nothing. -/
theorem ApplyMigrations_noop (env : Env) (m : Migrator) (s : DB) (ps : List GoString)
    (hrow : s.lockTable = some (some clearedRow)) (hf : NoFaults env)
    (hp : getPendingMigrations env m = .ok ps) (hall : ∀ f ∈ ps, Applied s f) :
    ApplyMigrations env m s = (none, s) := by
  have hL := Lock_of_free env m s (Or.inr ⟨clearedRow, hrow, rfl⟩) hf
  rw [ApplyMigrations_lock_ok env m s hL, Lock_ok_state env m s hL]
  unfold applyBody
  rw [hp]
  dsimp only
  rw [applyLoop_skip env m ps
    { lockTable := some (some
        { locked := true, locked_at := some env.nowUpdate, locked_by := some m.serviceID })
      migrations := s.migrations
      executed := s.executed } fun f hfm => ⟨hf _, hall f hfm⟩]
  dsimp only
  rw [Unlock_row env m _ _ rfl (hf _)]
  cases s
  simp_all

theorem getPending_congr (env env2 : Env) (m : Migrator)
    (h : env2.readDir m.path = env.readDir m.path) :
    getPendingMigrations env2 m = getPendingMigrations env m := by
  unfold getPendingMigrations
  rw [h]

theorem getPending_of_listing (env : Env) (m : Migrator) (files : List GoString)
    (h : env.readDir m.path = .ok files) :
    getPendingMigrations env m =
      .ok (sortStrings (files.filter fun name => HasSuffix name upSuffix)) := by
  unfold getPendingMigrations
  rw [h]

/-- Distinct strings sorted by `sort.Strings` ascend strictly by `<`. -/
theorem sortStrings_strict (l : List GoString) (hnd : l.Nodup) :
    (sortStrings l).Sorted fun a b => strLess a b = true := by
  have hs : (sortStrings l).Pairwise strLE := sortStrings_sorted l
  have hn : (sortStrings l).Pairwise (· ≠ ·) := ((sortStrings_perm l).nodup_iff).2 hnd
  refine (hs.and hn).imp ?_
  rintro a b ⟨hab, hne⟩
  cases h : strLess a b
  · exact absurd (strLess_eq_of_not a b h hab) hne
  · rfl

/-- In a duplicate-free list `pre ++ rest` whose part `rest` is new to the
ledger `vs`, the units not in `vs ++ pre` are those of `rest`. -/
theorem filter_new (vs pre rest : List GoString) (hnd : (pre ++ rest).Nodup)
    (hnew : ∀ u ∈ rest, u ∉ vs) :
    ((pre ++ rest).filter fun f => decide (f ∉ vs ++ pre)) = rest := by
  have hdis := (List.nodup_append.1 hnd).2.2
  rw [List.filter_append]
  have h1 : (pre.filter fun f => decide (f ∉ vs ++ pre)) = [] := by
    rw [List.filter_eq_nil_iff]
    intro a ha
    simp [ha]
  have h2 : (rest.filter fun f => decide (f ∉ vs ++ pre)) = rest := by
    rw [List.filter_eq_self]
    intro a ha
    have h3 : a ∉ pre := fun hp => hdis hp ha
    simp [hnew a ha, h3]
  rw [h1, h2]
  rfl

/-- Whatever happens, the scripts a run submits are a subsequence of the
sorted candidates, in their order. -/
theorem ApplyMigrations_executed (env : Env) (m : Migrator) (s : DB) (r : List GoString)
    (hp : getPendingMigrations env m = .ok r) :
    ∃ l, (ApplyMigrations env m s).2.executed = s.executed ++ l ∧ l.Sublist r := by
  rcases hL : (Lock env m s).1 with _ | e
  · rw [ApplyMigrations_lock_ok env m s hL]
    obtain ⟨l, hl, hs⟩ := applyLoop_executed env m r (Lock env m s).2
    refine ⟨l, ?_, hs⟩
    rw [Unlock_executed]
    unfold applyBody
    rw [hp]
    dsimp only
    rw [hl, Lock_executed]
  · rw [ApplyMigrations_lock_err env m s e hL]
    exact ⟨[], by simp, List.nil_sublist r⟩

/-- What a successful run implies: the lock was acquired, the directory was
listed, and every listed unit is in the ledger afterwards. -/
theorem ApplyMigrations_success (env : Env) (m : Migrator) (s : DB)
    (h : (ApplyMigrations env m s).1 = none) :
    (Lock env m s).1 = none ∧
    ∃ ps, getPendingMigrations env m = .ok ps ∧
      ∀ f ∈ ps, Applied (ApplyMigrations env m s).2 f := by
  rcases hL : (Lock env m s).1 with _ | e
  · refine ⟨rfl, ?_⟩
    rw [ApplyMigrations_lock_ok env m s hL] at h ⊢
    rcases hp : getPendingMigrations env m with e | ps
    · exfalso
      unfold applyBody at h
      rw [hp] at h
      cases h
    · refine ⟨ps, rfl, ?_⟩
      have hb : applyBody env m (Lock env m s).2 = applyLoop env m ps (Lock env m s).2 := by
        unfold applyBody
        rw [hp]
      rw [hb] at h ⊢
      intro f hfm
      obtain ⟨vs, hvs, hv⟩ := applyLoop_applied env m ps _ h f hfm
      exact ⟨vs, by rw [Unlock_migrations]; exact hvs, hv⟩
  · rw [ApplyMigrations_lock_err env m s e hL] at h
    cases h

/-- A run on a free lock in which the script of `uk` fails after the units
`pre` before it succeeded: the error names `uk`, the ledger gains `pre`, the
scripts of `pre` and `uk` were submitted, and the lock is cleared. -/
theorem ApplyMigrations_fails_at (env : Env) (m : Migrator) (s : DB)
    (vs pre post : List GoString) (uk content : GoString) (e : Err)
    (hfree : LockFree s) (hf : NoFaults env) (hm : s.migrations = some vs)
    (hp : getPendingMigrations env m = .ok (pre ++ uk :: post))
    (hnd : (pre ++ uk :: post).Nodup) (hnew : ∀ u ∈ pre ++ uk :: post, u ∉ vs)
    (hpre : ∀ u ∈ pre, ∃ c, env.readFile m.path u = .ok c ∧ env.script c = none)
    (hk : env.readFile m.path uk = .ok content) (hfail : env.script content = some e) :
    ApplyMigrations env m s =
      (some (.applyWrap uk e),
       { lockTable := some (some clearedRow)
         migrations := some (vs ++ pre)
         executed := s.executed ++ pre ++ [uk] }) := by
  have hL := Lock_of_free env m s hfree hf
  have hprefilter : (pre.filter fun f => decide (f ∉ vs)) = pre := by
    rw [List.filter_eq_self]
    intro a ha
    simp [hnew a (List.mem_append_left _ ha)]
  have hukpre : uk ∉ pre := fun h =>
    (List.nodup_append.1 hnd).2.2 h (List.mem_cons_self uk post)
  have hukvs : uk ∉ vs := hnew uk (by simp)
  rw [ApplyMigrations_lock_ok env m s hL, Lock_ok_state env m s hL]
  unfold applyBody
  rw [hp]
  dsimp only
  have h1 := applyLoop_ok env m hf pre
    { lockTable := some (some
        { locked := true, locked_at := some env.nowUpdate, locked_by := some m.serviceID })
      migrations := s.migrations
      executed := s.executed } vs hm (List.nodup_append.1 hnd).1 fun f hfm _ => hpre f hfm
  rw [hprefilter] at h1
  rw [applyLoop_append env m (uk :: post) pre _ _ h1]
  have hq : isMigrationApplied env m
      { lockTable := some (some
          { locked := true, locked_at := some env.nowUpdate, locked_by := some m.serviceID })
        migrations := some (vs ++ pre)
        executed := s.executed ++ pre } uk = false := by
    cases hq : isMigrationApplied env m _ uk
    · rfl
    · obtain ⟨ws, hw, hv⟩ := isApplied_applied env m _ uk hq
      simp only [Option.some.injEq] at hw
      subst hw
      rcases List.mem_append.1 hv with h | h
      · exact absurd h hukvs
      · exact absurd h hukpre
  rw [applyLoop_cons_err env m uk post _ _ e hq
    (applyFile_script_fails env m _ uk content e hk hfail)]
  dsimp only
  rw [Unlock_row env m _ _ rfl (hf _)]

/-! ## The claims -/

/-- C1 (mutual exclusion).  When row 1 of `migrations_lock` has
`locked = true` and `locked_by = A`, `ApplyMigrations` of any migrator, on
any directory and under any environment, returns an error that wraps the
error of `Lock`, submits no script, adds nothing to the ledger and leaves
the lock row as it was: the whole database state is unchanged, so `Unlock`
has not run. -/
theorem C1_mutual_exclusion (env : Env) (m : Migrator) (s : DB) (row : LockRow)
    (A : GoString) (hrow : s.lockTable = some (some row)) (hl : row.locked = true)
    (hA : row.locked_by = some A) :
    (∃ e, (ApplyMigrations env m s).1 = some (.lockWrap e)) ∧
    (ApplyMigrations env m s).2.executed = s.executed ∧
    (ApplyMigrations env m s).2.migrations = s.migrations ∧
    (∃ r, (ApplyMigrations env m s).2.lockTable = some (some r) ∧
      r.locked = true ∧ r.locked_by = some A) ∧
    (ApplyMigrations env m s).2 = s := by
  have hne := Lock_held env m s row hrow hl
  obtain ⟨e, he⟩ := Option.ne_none_iff_exists'.1 hne
  rw [ApplyMigrations_lock_err env m s e he]
  exact ⟨⟨e, rfl⟩, rfl, rfl, ⟨row, hrow, hl, hA⟩, rfl⟩

/-- Instance of C1: the lock is held by `svc-A`, the migrator is `svc-B`. -/
theorem C1_mutual_exclusion_witness :
    (∃ e, (ApplyMigrations demoEnv demoMigrator (heldBy (ascii "svc-A"))).1
        = some (.lockWrap e)) ∧
    (ApplyMigrations demoEnv demoMigrator (heldBy (ascii "svc-A"))).2.executed = [] ∧
    (ApplyMigrations demoEnv demoMigrator (heldBy (ascii "svc-A"))).2.migrations
      = some [ascii "0001_a.up.sql"] ∧
    (∃ r, (ApplyMigrations demoEnv demoMigrator (heldBy (ascii "svc-A"))).2.lockTable
        = some (some r) ∧ r.locked = true ∧ r.locked_by = some (ascii "svc-A")) ∧
    (ApplyMigrations demoEnv demoMigrator (heldBy (ascii "svc-A"))).2
      = heldBy (ascii "svc-A") :=
  C1_mutual_exclusion demoEnv demoMigrator (heldBy (ascii "svc-A"))
    { locked := true, locked_at := some 7, locked_by := some (ascii "svc-A") }
    (ascii "svc-A") rfl rfl rfl

/-- After a successful `Lock` and with a working `Unlock` statement the lock
row ends cleared. -/
theorem release_after_lock (env : Env) (m : Migrator) (s : DB)
    (hlock : (Lock env m s).1 = none) (hun : env.fault .unlock = none) :
    (ApplyMigrations env m s).2.lockTable = some (some clearedRow) := by
  rw [ApplyMigrations_lock_ok env m s hlock]
  have hrow : (applyBody env m (Lock env m s).2).2.lockTable = some (some
      { locked := true, locked_at := some env.nowUpdate,
        locked_by := some m.serviceID }) := by
    rw [applyBody_lockTable, Lock_ok_state env m s hlock]
  rw [Unlock_row env m _ _ hrow hun]

/-- C5 (guaranteed release).  Whenever `Lock` succeeded and the statement of
`Unlock` does not fail, the lock row after `ApplyMigrations` is
`locked = false, locked_at = NULL, locked_by = NULL`, whatever the listing,
the scripts and the other database operations did: the environment is
arbitrary, so every exit path after `Lock` is covered. -/
theorem C5_guaranteed_release (env : Env) (m : Migrator) (s : DB)
    (hlock : (Lock env m s).1 = none) (hun : env.fault .unlock = none) :
    (ApplyMigrations env m s).2.lockTable =
      some (some { locked := false, locked_at := none, locked_by := none }) :=
  release_after_lock env m s hlock hun

/-- Instance of C5 on the exit path of a failing unit: the script of
`0002_c.up.sql` fails, the run returns the error and the lock is cleared. -/
theorem C5_guaranteed_release_witness :
    (ApplyMigrations (failingEnv (ascii "0002_c.up.sql")) demoMigrator emptyDB).1
      = some (.applyWrap (ascii "0002_c.up.sql") (.storage 1064)) ∧
    (ApplyMigrations (failingEnv (ascii "0002_c.up.sql")) demoMigrator emptyDB).2.lockTable
      = some (some { locked := false, locked_at := none, locked_by := none }) :=
  ⟨by decide,
   C5_guaranteed_release (failingEnv (ascii "0002_c.up.sql")) demoMigrator emptyDB
    (by decide) rfl⟩

/-- C6 (acquire on a free lock).  When the lock row is absent, or present
with `locked = false`, and no database operation fails, `Lock` returns no
error, row 1 is `locked = true, locked_by = serviceID` (with `locked_at` the
time read for the update), and the ledger and the script trace are
unchanged. -/
theorem C6_acquire_free (env : Env) (m : Migrator) (s : DB) (hfree : LockFree s)
    (hf : NoFaults env) :
    (Lock env m s).1 = none ∧
    (Lock env m s).2.lockTable = some (some
      { locked := true, locked_at := some env.nowUpdate,
        locked_by := some m.serviceID }) ∧
    (Lock env m s).2.migrations = s.migrations ∧
    (Lock env m s).2.executed = s.executed := by
  have h := Lock_of_free env m s hfree hf
  refine ⟨h, ?_, Lock_migrations env m s, Lock_executed env m s⟩
  rw [Lock_ok_state env m s h]

/-- Instance of C6 on a database whose lock row is absent. -/
theorem C6_acquire_free_witness :
    LockFree emptyDB ∧ NoFaults quietEnv ∧
    (Lock quietEnv demoMigrator emptyDB).1 = none ∧
    (Lock quietEnv demoMigrator emptyDB).2.lockTable = some (some
      { locked := true, locked_at := some 0, locked_by := some (ascii "svc-B") }) ∧
    (Lock quietEnv demoMigrator emptyDB).2.migrations = some [] ∧
    (Lock quietEnv demoMigrator emptyDB).2.executed = [] :=
  ⟨Or.inl rfl, fun _ => rfl,
   C6_acquire_free quietEnv demoMigrator emptyDB (Or.inl rfl) (fun _ => rfl)⟩

/-- C7, refuted as stated: the error of a refused `Lock` does not identify
the holder.  Held by `svc-A` or by `svc-C`, the lock is refused with the same
error value, which has no field for a holder. -/
theorem C7_counterexample :
    ascii "svc-A" ≠ ascii "svc-C" ∧
    (Lock quietEnv demoMigrator (heldBy (ascii "svc-A"))).1 = some .alreadyInProgress ∧
    (Lock quietEnv demoMigrator (heldBy (ascii "svc-C"))).1 = some .alreadyInProgress ∧
    ¬ (∀ A C : GoString, A ≠ C →
        (Lock quietEnv demoMigrator (heldBy A)).1 ≠
          (Lock quietEnv demoMigrator (heldBy C)).1) :=
  ⟨by decide, by decide, by decide,
   fun h => h (ascii "svc-A") (ascii "svc-C") (by decide) (by decide)⟩

/-- C7 as amended.  When `Lock` is refused because the lock row has
`locked = true` (the transaction began and the row was read), the error is
the fixed value `errors.New("migrations are already in progress by another
service")` and the database is unchanged; the error is the same for every
holder, every `locked_at` and every caller. -/
theorem C7_refusal_error (env : Env) (m m2 : Migrator) (s s2 : DB) (row row2 : LockRow)
    (hrow : s.lockTable = some (some row)) (hl : row.locked = true)
    (hrow2 : s2.lockTable = some (some row2)) (hl2 : row2.locked = true)
    (hb : env.fault .begin = none) (hs : env.fault .selectLock = none) :
    Lock env m s = (some .alreadyInProgress, s) ∧
    (Lock env m2 s2).1 = (Lock env m s).1 := by
  rw [Lock_held_eq env m s row hrow hl hb hs, Lock_held_eq env m2 s2 row2 hrow2 hl2 hb hs]
  exact ⟨rfl, rfl⟩

/-- Instance of the amended C7: holders `svc-A` and `svc-C`. -/
theorem C7_refusal_error_witness :
    Lock quietEnv demoMigrator (heldBy (ascii "svc-A"))
      = (some .alreadyInProgress, heldBy (ascii "svc-A")) ∧
    (Lock quietEnv (NewMigrator (ascii "svc-D") []) (heldBy (ascii "svc-C"))).1
      = (Lock quietEnv demoMigrator (heldBy (ascii "svc-A"))).1 :=
  C7_refusal_error quietEnv demoMigrator (NewMigrator (ascii "svc-D") [])
    (heldBy (ascii "svc-A")) (heldBy (ascii "svc-C"))
    { locked := true, locked_at := some 7, locked_by := some (ascii "svc-A") }
    { locked := true, locked_at := some 7, locked_by := some (ascii "svc-C") }
    rfl rfl rfl rfl rfl rfl

/-- C8 (release is unconditional).  On a database with a lock row, whatever
the row holds and whoever calls, `Unlock` whose statement executes sets the
row to `locked = false, locked_at = NULL, locked_by = NULL` and returns no
error.  It never changes the ledger or the script trace, its result does
not depend on the caller, and running it twice gives the state of running
it once. -/
theorem C8_release_unconditional (env : Env) (m : Migrator) (s : DB) (row : LockRow)
    (hrow : s.lockTable = some (some row)) (hf : env.fault .unlock = none) :
    (Unlock env m s).1 = none ∧
    (Unlock env m s).2.lockTable =
      some (some { locked := false, locked_at := none, locked_by := none }) ∧
    (Unlock env m s).2.migrations = s.migrations ∧
    (Unlock env m s).2.executed = s.executed ∧
    (∀ caller : Migrator, Unlock env caller s = Unlock env m s) ∧
    (Unlock env m (Unlock env m s).2).2 = (Unlock env m s).2 := by
  refine ⟨?_, ?_, Unlock_migrations env m s, Unlock_executed env m s, fun _ => rfl,
    Unlock_idem env m s⟩
  · rw [Unlock_row env m s row hrow hf]
  · rw [Unlock_row env m s row hrow hf]
    rfl

/-- Instance of C8: `svc-B` releases the lock held by `svc-A`. -/
theorem C8_release_unconditional_witness :
    (Unlock quietEnv demoMigrator (heldBy (ascii "svc-A"))).1 = none ∧
    (Unlock quietEnv demoMigrator (heldBy (ascii "svc-A"))).2.lockTable =
      some (some { locked := false, locked_at := none, locked_by := none }) ∧
    (Unlock quietEnv demoMigrator (heldBy (ascii "svc-A"))).2.migrations
      = (heldBy (ascii "svc-A")).migrations ∧
    (Unlock quietEnv demoMigrator (heldBy (ascii "svc-A"))).2.executed
      = (heldBy (ascii "svc-A")).executed ∧
    (∀ caller : Migrator, Unlock quietEnv caller (heldBy (ascii "svc-A"))
      = Unlock quietEnv demoMigrator (heldBy (ascii "svc-A"))) ∧
    (Unlock quietEnv demoMigrator
        (Unlock quietEnv demoMigrator (heldBy (ascii "svc-A"))).2).2
      = (Unlock quietEnv demoMigrator (heldBy (ascii "svc-A"))).2 :=
  C8_release_unconditional quietEnv demoMigrator (heldBy (ascii "svc-A"))
    { locked := true, locked_at := some 7, locked_by := some (ascii "svc-A") } rfl rfl

/-- C9, refuted as stated: the directory is listed after the lock has been
taken.  On a database without a lock row and with an unreadable directory,
`ApplyMigrations` returns the I/O error, yet the lock row has been created:
the lock record after the call differs from the one before it. -/
theorem C9_counterexample :
    unreadableEnv.readDir demoMigrator.path = .error (.io 2) ∧
    emptyDB.lockTable = some none ∧
    (ApplyMigrations unreadableEnv demoMigrator emptyDB).1 = some (.io 2) ∧
    (ApplyMigrations unreadableEnv demoMigrator emptyDB).2.lockTable
      = some (some { locked := false, locked_at := none, locked_by := none }) ∧
    (ApplyMigrations unreadableEnv demoMigrator emptyDB).2.lockTable
      ≠ emptyDB.lockTable :=
  ⟨rfl, rfl, by decide, by decide, by decide⟩

/-- C9 as amended.  An unreadable directory aborts the run after the lock
has been acquired and before any unit is applied: with the lock free and no
database operation failing, `ApplyMigrations` returns the I/O error of the
listing unwrapped, submits no script, leaves the ledger unchanged, and the
lock row, acquired and released, ends as `locked = false, locked_at = NULL,
locked_by = NULL`. -/
theorem C9_listing_error_under_lock (env : Env) (m : Migrator) (s : DB) (e : Err)
    (hdir : env.readDir m.path = .error e) (hfree : LockFree s) (hf : NoFaults env) :
    (ApplyMigrations env m s).1 = some e ∧
    (ApplyMigrations env m s).2.executed = s.executed ∧
    (ApplyMigrations env m s).2.migrations = s.migrations ∧
    (ApplyMigrations env m s).2.lockTable =
      some (some { locked := false, locked_at := none, locked_by := none }) := by
  have hL := Lock_of_free env m s hfree hf
  have hb : applyBody env m (Lock env m s).2 = (some e, (Lock env m s).2) := by
    unfold applyBody getPendingMigrations
    rw [hdir]
  rw [ApplyMigrations_lock_ok env m s hL, hb]
  refine ⟨rfl, ?_, ?_, ?_⟩
  · rw [Unlock_executed, Lock_executed]
  · rw [Unlock_migrations, Lock_migrations]
  · rw [Lock_ok_state env m s hL, Unlock_row env m _ _ rfl (hf _)]
    rfl

/-- Instance of the amended C9 on a database without a lock row. -/
theorem C9_listing_error_under_lock_witness :
    (ApplyMigrations unreadableEnv demoMigrator emptyDB).1 = some (.io 2) ∧
    (ApplyMigrations unreadableEnv demoMigrator emptyDB).2.executed = emptyDB.executed ∧
    (ApplyMigrations unreadableEnv demoMigrator emptyDB).2.migrations
      = emptyDB.migrations ∧
    (ApplyMigrations unreadableEnv demoMigrator emptyDB).2.lockTable =
      some (some { locked := false, locked_at := none, locked_by := none }) :=
  C9_listing_error_under_lock unreadableEnv demoMigrator emptyDB (.io 2) rfl
    (Or.inl rfl) (fun _ => rfl)

/-- C10, refuted as stated: `ApplyMigrations` does not create the tables.
On a database without them, and with nothing else failing, the run fails
in `Lock` on the missing table `migrations_lock`, and afterwards neither
table exists. -/
theorem C10_counterexample :
    NoFaults quietEnv ∧
    ApplyMigrations quietEnv demoMigrator freshDB
      = (some (.lockWrap .noSuchTable), freshDB) ∧
    (ApplyMigrations quietEnv demoMigrator freshDB).2.lockTable = none ∧
    (ApplyMigrations quietEnv demoMigrator freshDB).2.migrations = none :=
  ⟨fun _ => rfl, by decide, by decide, by decide⟩

/-- C10 as amended.  The tables are ensured by `InitSchema`, which
`ApplyMigrations` does not call.  With no database operation failing,
`InitSchema` returns no error, leaves both tables existing with the rows
they had, and submits no script; run on a database that lacks
`migrations_lock`, `ApplyMigrations` alone returns an error and changes
nothing, while after `InitSchema` its `Lock` succeeds, and the run returns
no error when the listed scripts are readable and succeed. -/
theorem C10_bootstrap_is_separate (env : Env) (m : Migrator) (s : DB)
    (hf : NoFaults env) (hno : s.lockTable = none) :
    ApplyMigrations env m s = (some (.lockWrap .noSuchTable), s) ∧
    (InitSchema env m s).1 = none ∧
    (InitSchema env m s).2.lockTable = some none ∧
    (InitSchema env m s).2.migrations = some (s.migrations.getD []) ∧
    (InitSchema env m s).2.executed = s.executed ∧
    (Lock env m (InitSchema env m s).2).1 = none ∧
    (∀ ps, getPendingMigrations env m = .ok ps → ps.Nodup →
      (∀ f ∈ ps, ∃ c, env.readFile m.path f = .ok c ∧ env.script c = none) →
      (ApplyMigrations env m (InitSchema env m s).2).1 = none) := by
  have hfree : LockFree (InitSchema env m s).2 := by
    rw [InitSchema_ok env m s hf, hno]
    exact Or.inl rfl
  refine ⟨?_, ?_, ?_, ?_, ?_, Lock_of_free env m _ hfree hf, ?_⟩
  · apply ApplyMigrations_lock_err
    unfold Lock
    rw [hf .begin, hf .selectLock, hno]
  · rw [InitSchema_ok env m s hf]
  · rw [InitSchema_ok env m s hf, hno]
    rfl
  · rw [InitSchema_ok env m s hf]
  · rw [InitSchema_ok env m s hf]
  · intro ps hp hnd hok
    rw [ApplyMigrations_ok env m _ (s.migrations.getD []) ps hfree hf
      (by rw [InitSchema_ok env m s hf]) hp hnd fun f hfm _ => hok f hfm]

/-- Instance of the amended C10 on a database without tables and the
directory of `demoEnv`. -/
theorem C10_bootstrap_is_separate_witness :
    ApplyMigrations demoEnv demoMigrator freshDB
      = (some (.lockWrap .noSuchTable), freshDB) ∧
    (InitSchema demoEnv demoMigrator freshDB).2 = emptyDB ∧
    (ApplyMigrations demoEnv demoMigrator (InitSchema demoEnv demoMigrator freshDB).2).1
      = none :=
  have h := C10_bootstrap_is_separate demoEnv demoMigrator freshDB (fun _ => rfl) rfl
  ⟨h.1, by decide,
   h.2.2.2.2.2.2 _ rfl (by decide) (fun _ _ => ⟨[], rfl, rfl⟩)⟩

/-- C2 (ordering).  For a directory listing `files`, `getPendingMigrations`
returns a list `r` that is a rearrangement of the names of `files` ending in
`.up.sql` (each as often as it is listed, so each once when the names are
distinct, and then strictly ascending), sorted ascending by Go's byte-wise
`<`; every rearrangement of the listing gives the same `r`.  The scripts a
run of `ApplyMigrations` submits are always a subsequence of `r` in the
order of `r`; on a free lock, with no failing database operation and
readable, successful scripts, they are exactly the units of `r` that are
not in the ledger, in the order of `r`. -/
theorem C2_ordering (env : Env) (m : Migrator) (files : List GoString)
    (hdir : env.readDir m.path = .ok files) :
    ∃ r, getPendingMigrations env m = .ok r ∧
      r.Perm (files.filter fun name => HasSuffix name (ascii ".up.sql")) ∧
      (∀ name, name ∈ r ↔ name ∈ files ∧ ∃ front, name = front ++ ascii ".up.sql") ∧
      r.Sorted (fun a b => strLess b a = false) ∧
      (files.Nodup → r.Nodup ∧ r.Sorted (fun a b => strLess a b = true)) ∧
      (∀ (env2 : Env) (files2 : List GoString), env2.readDir m.path = .ok files2 →
        files2.Perm files → getPendingMigrations env2 m = .ok r) ∧
      (∀ s, ∃ l, (ApplyMigrations env m s).2.executed = s.executed ++ l ∧ l.Sublist r) ∧
      (∀ s vs, files.Nodup → LockFree s → NoFaults env → s.migrations = some vs →
        (∀ f ∈ r, f ∉ vs → ∃ c, env.readFile m.path f = .ok c ∧ env.script c = none) →
        (ApplyMigrations env m s).1 = none ∧
        (ApplyMigrations env m s).2.executed =
          s.executed ++ r.filter fun f => decide (f ∉ vs)) := by
  have hp := getPending_of_listing env m files hdir
  have hrnd : files.Nodup →
      (sortStrings (files.filter fun name => HasSuffix name upSuffix)).Nodup :=
    fun hnd => ((sortStrings_perm _).nodup_iff).2 (hnd.filter _)
  refine ⟨_, hp, sortStrings_perm _, ?_, sortStrings_sorted _, ?_, ?_, ?_, ?_⟩
  · intro name
    rw [(sortStrings_perm _).mem_iff, List.mem_filter, HasSuffix_iff]
    rfl
  · intro hnd
    exact ⟨hrnd hnd, sortStrings_strict _ (hnd.filter _)⟩
  · intro env2 files2 hdir2 hperm
    rw [getPending_of_listing env2 m files2 hdir2]
    exact congrArg _ (sortStrings_congr _ _ (hperm.filter _))
  · intro s
    exact ApplyMigrations_executed env m s _ hp
  · intro s vs hnd hfree hf hm hok
    rw [ApplyMigrations_ok env m s vs _ hfree hf hm hp (hrnd hnd) hok]
    exact ⟨rfl, rfl⟩

/-- Instance of C2: the listing `0001_a`, `0010_b`, `0002_c` (and a rollback
file) gives `0001_a`, `0002_c`, `0010_b`, and a run on an empty ledger
submits the three scripts in that order. -/
theorem C2_ordering_witness :
    demoEnv.readDir demoMigrator.path = .ok (ascii "0001_a.down.sql" :: demoFiles) ∧
    (ascii "0001_a.down.sql" :: demoFiles).Nodup ∧
    getPendingMigrations demoEnv demoMigrator =
      .ok [ascii "0001_a.up.sql", ascii "0002_c.up.sql", ascii "0010_b.up.sql"] ∧
    [ascii "0001_a.up.sql", ascii "0002_c.up.sql", ascii "0010_b.up.sql"].Sorted
      (fun a b => strLess a b = true) ∧
    (ApplyMigrations demoEnv demoMigrator emptyDB).1 = none ∧
    (ApplyMigrations demoEnv demoMigrator emptyDB).2.executed =
      [ascii "0001_a.up.sql", ascii "0002_c.up.sql", ascii "0010_b.up.sql"] := by
  have hnd : (ascii "0001_a.down.sql" :: demoFiles).Nodup := by decide
  obtain ⟨r, hr, -, -, -, hstrict, -, -, hrun⟩ :=
    C2_ordering demoEnv demoMigrator (ascii "0001_a.down.sql" :: demoFiles) rfl
  have hval : getPendingMigrations demoEnv demoMigrator =
      .ok [ascii "0001_a.up.sql", ascii "0002_c.up.sql", ascii "0010_b.up.sql"] := rfl
  have hreq : r = [ascii "0001_a.up.sql", ascii "0002_c.up.sql", ascii "0010_b.up.sql"] := by
    rw [hr] at hval
    exact Except.ok.inj hval
  have h := hrun emptyDB [] hnd (Or.inl rfl) (fun _ => rfl) rfl
    (fun _ _ _ => ⟨[], rfl, rfl⟩)
  refine ⟨rfl, hnd, hval, ?_, h.1, ?_⟩
  · rw [← hreq]
    exact (hstrict hnd).2
  · rw [h.2, hreq]
    decide

/-- C3 (idempotence).  If a run of `ApplyMigrations` returns no error and its
`Unlock` statement does not fail, then a second run on the same directory
with no failing database operation returns no error and leaves the whole
database as the first run left it: no script is submitted and the ledger is
unchanged.  A ledger without duplicates has none after either run. -/
theorem C3_idempotence (env1 env2 : Env) (m : Migrator) (s : DB)
    (hfirst : (ApplyMigrations env1 m s).1 = none)
    (hun : env1.fault .unlock = none) (hf2 : NoFaults env2)
    (hdir : env2.readDir m.path = env1.readDir m.path) (hu : LedgerUnique s) :
    LockFree s ∧
    (ApplyMigrations env2 m (ApplyMigrations env1 m s).2).1 = none ∧
    (ApplyMigrations env2 m (ApplyMigrations env1 m s).2).2.executed
      = (ApplyMigrations env1 m s).2.executed ∧
    (ApplyMigrations env2 m (ApplyMigrations env1 m s).2).2.migrations
      = (ApplyMigrations env1 m s).2.migrations ∧
    (ApplyMigrations env2 m (ApplyMigrations env1 m s).2).2 = (ApplyMigrations env1 m s).2 ∧
    LedgerUnique (ApplyMigrations env1 m s).2 ∧
    LedgerUnique (ApplyMigrations env2 m (ApplyMigrations env1 m s).2).2 := by
  obtain ⟨hL, ps, hp, happ⟩ := ApplyMigrations_success env1 m s hfirst
  have hrow : (ApplyMigrations env1 m s).2.lockTable = some (some clearedRow) :=
    release_after_lock env1 m s hL hun
  have h2 := ApplyMigrations_noop env2 m _ ps hrow hf2
    ((getPending_congr env1 env2 m hdir).trans hp) happ
  have hu1 := ApplyMigrations_unique env1 m s hu
  rw [h2]
  exact ⟨Lock_ok_free env1 m s hL, rfl, rfl, rfl, rfl, hu1, hu1⟩

/-- Instance of C3: two runs on the directory of `demoEnv`, from an empty
ledger. -/
theorem C3_idempotence_witness :
    (ApplyMigrations demoEnv demoMigrator emptyDB).1 = none ∧
    (ApplyMigrations demoEnv demoMigrator
      (ApplyMigrations demoEnv demoMigrator emptyDB).2).1 = none ∧
    (ApplyMigrations demoEnv demoMigrator
      (ApplyMigrations demoEnv demoMigrator emptyDB).2).2
      = (ApplyMigrations demoEnv demoMigrator emptyDB).2 ∧
    (ApplyMigrations demoEnv demoMigrator emptyDB).2.migrations =
      some [ascii "0001_a.up.sql", ascii "0002_c.up.sql", ascii "0010_b.up.sql"] :=
  have h := C3_idempotence demoEnv demoEnv demoMigrator emptyDB (by decide) rfl
    (fun _ => rfl) rfl (fun vs hvs => by cases hvs; exact List.nodup_nil)
  ⟨by decide, h.2.1, h.2.2.2.2.1, by decide⟩

/-- C4 (partial-failure recovery).  Let the sorted candidates be the
distinct units `pre ++ uk :: post`, none of them in the ledger `vs`, on a
free lock and with no failing database operation.  If the scripts of `pre`
succeed and the script of `uk` fails with `e`, the run returns the error
`failed to apply migration uk: e`, the ledger afterwards is `vs ++ pre`, the
scripts submitted are those of `pre` and `uk` and none of `post`, and the
lock is cleared.  A following run on the same candidates in which the
scripts of `uk :: post` succeed returns no error, submits exactly the
scripts of `uk :: post` in order, and the ledger becomes
`vs ++ pre ++ uk :: post`. -/
theorem C4_partial_failure_recovery (env1 env2 : Env) (m : Migrator) (s : DB)
    (vs pre post : List GoString) (uk content : GoString) (e : Err)
    (hfree : LockFree s) (hm : s.migrations = some vs)
    (hf1 : NoFaults env1) (hf2 : NoFaults env2)
    (hp1 : getPendingMigrations env1 m = .ok (pre ++ uk :: post))
    (hp2 : getPendingMigrations env2 m = .ok (pre ++ uk :: post))
    (hnd : (pre ++ uk :: post).Nodup) (hnew : ∀ u ∈ pre ++ uk :: post, u ∉ vs)
    (hpre : ∀ u ∈ pre, ∃ c, env1.readFile m.path u = .ok c ∧ env1.script c = none)
    (hk : env1.readFile m.path uk = .ok content) (hfail : env1.script content = some e)
    (hall2 : ∀ u ∈ uk :: post, ∃ c, env2.readFile m.path u = .ok c ∧ env2.script c = none) :
    (ApplyMigrations env1 m s).1 = some (.applyWrap uk e) ∧
    (ApplyMigrations env1 m s).2.migrations = some (vs ++ pre) ∧
    (ApplyMigrations env1 m s).2.executed = s.executed ++ pre ++ [uk] ∧
    (ApplyMigrations env1 m s).2.lockTable = some (some clearedRow) ∧
    (ApplyMigrations env2 m (ApplyMigrations env1 m s).2).1 = none ∧
    (ApplyMigrations env2 m (ApplyMigrations env1 m s).2).2.executed
      = (ApplyMigrations env1 m s).2.executed ++ uk :: post ∧
    (ApplyMigrations env2 m (ApplyMigrations env1 m s).2).2.migrations
      = some (vs ++ pre ++ uk :: post) := by
  have h1 := ApplyMigrations_fails_at env1 m s vs pre post uk content e hfree hf1 hm hp1
    hnd hnew hpre hk hfail
  have hnew2 : ∀ u ∈ uk :: post, u ∉ vs := fun u hu => hnew u (List.mem_append_right _ hu)
  have hok2 : ∀ f ∈ pre ++ uk :: post, f ∉ vs ++ pre →
      ∃ c, env2.readFile m.path f = .ok c ∧ env2.script c = none := by
    intro f hfm hfn
    rcases List.mem_append.1 hfm with h | h
    · exact absurd (List.mem_append_right vs h) hfn
    · exact hall2 f h
  have h2 := ApplyMigrations_ok env2 m
    { lockTable := some (some clearedRow)
      migrations := some (vs ++ pre)
      executed := s.executed ++ pre ++ [uk] } (vs ++ pre) (pre ++ uk :: post)
    (Or.inr ⟨clearedRow, rfl, rfl⟩) hf2 rfl hp2 hnd hok2
  rw [filter_new vs pre (uk :: post) hnd hnew2] at h2
  rw [h1, h2]
  exact ⟨rfl, rfl, rfl, rfl, rfl, rfl, rfl⟩

/-- Instance of C4: unit 2 of 3 fails.  The ledger then holds exactly unit 1,
and the next run, with every script succeeding, submits units 2 and 3
only. -/
theorem C4_partial_failure_recovery_witness :
    (ApplyMigrations (failingEnv (ascii "0002_c.up.sql")) demoMigrator emptyDB).1
      = some (.applyWrap (ascii "0002_c.up.sql") (.storage 1064)) ∧
    (ApplyMigrations (failingEnv (ascii "0002_c.up.sql")) demoMigrator emptyDB).2.migrations
      = some [ascii "0001_a.up.sql"] ∧
    (ApplyMigrations (failingEnv (ascii "0002_c.up.sql")) demoMigrator emptyDB).2.executed
      = [ascii "0001_a.up.sql", ascii "0002_c.up.sql"] ∧
    (ApplyMigrations demoEnv demoMigrator
      (ApplyMigrations (failingEnv (ascii "0002_c.up.sql")) demoMigrator emptyDB).2).1
      = none ∧
    (ApplyMigrations demoEnv demoMigrator
      (ApplyMigrations (failingEnv (ascii "0002_c.up.sql")) demoMigrator emptyDB).2).2.executed
      = (ApplyMigrations (failingEnv (ascii "0002_c.up.sql")) demoMigrator emptyDB).2.executed
        ++ [ascii "0002_c.up.sql", ascii "0010_b.up.sql"] ∧
    (ApplyMigrations demoEnv demoMigrator
      (ApplyMigrations (failingEnv (ascii "0002_c.up.sql")) demoMigrator emptyDB).2).2.migrations
      = some [ascii "0001_a.up.sql", ascii "0002_c.up.sql", ascii "0010_b.up.sql"] :=
  have h := C4_partial_failure_recovery (failingEnv (ascii "0002_c.up.sql")) demoEnv
    demoMigrator emptyDB [] [ascii "0001_a.up.sql"] [ascii "0010_b.up.sql"]
    (ascii "0002_c.up.sql") (ascii "0002_c.up.sql") (.storage 1064)
    (Or.inl rfl) rfl (fun _ => rfl) (fun _ => rfl) rfl rfl (by decide)
    (fun _ _ h => nomatch h)
    (fun u hu => ⟨u, rfl, by
      have hu2 : u = ascii "0001_a.up.sql" := by simpa using hu
      subst hu2
      decide⟩)
    rfl (by decide) (fun _ _ => ⟨[], rfl, rfl⟩)
  ⟨h.1, h.2.1, h.2.2.1, h.2.2.2.2.1, h.2.2.2.2.2.1, h.2.2.2.2.2.2⟩

end migrator
